import Mathlib

/-!
Shallow embedding of the CampusCore service (`src/main.py`): an in-memory
model of the user / student / chat state and of every HTTP handler, with
proofs of the behavioural properties claimed for the service.

Modelling conventions:
* SHA-256 (`hash_password`) is modelled by an arbitrary function parameter
  `hash : String → String`; nothing proved here depends on its structure.
* `secrets.token_hex(16)` (fresh API keys) is modelled by an explicit input
  parameter carrying the generated key.
* The SQL store is modelled by Lean lists.  The `username` column carries a
  UNIQUE constraint in the schema, so row update / delete keyed on a username
  touches exactly one row; we model them as map / filter over the list.
* SQLite assigns an INTEGER PRIMARY KEY (no AUTOINCREMENT) as one more than
  the largest rowid currently in the table (1 when the table is empty); this
  is `nextStudentId` below.
* A `raise HTTPException` is modelled by returning `Except.error` together
  with the unchanged state (every raise in the source happens before any
  mutation is committed).
-/

namespace CampusCore

/-- Role levels, as in `main.py` lines 20-22. -/
def ROLE_GUEST : Nat := 100

def ROLE_VIP : Nat := 200

def ROLE_OWNER : Nat := 300

/-- Row of the `User` table (`main.py` lines 30-36). -/
structure User where
  username : String
  hashed_password : String
  role : Nat
  api_key : String
  suspended : Bool
deriving DecidableEq

/-- Row of the `Student` table (`main.py` lines 42-46). -/
structure Student where
  id : Nat
  name : String
  age : Int
  course : String
deriving DecidableEq

/-- Request body of POST /chat (`ChatMessage`, lines 58-60). -/
structure ChatMessage where
  username : String
  message : String
deriving DecidableEq

/-- A stored chat entry: the dict appended at line 274. -/
structure ChatEntry where
  username : String
  message : String
deriving DecidableEq

/-- Model of `HTTPException(status_code, detail)`. -/
structure HTTPError where
  status_code : Nat
  detail : String
deriving DecidableEq

/-- Response of /register and /login: username, api_key and role. -/
structure AuthResponse where
  username : String
  api_key : String
  role : Nat
deriving DecidableEq

/-- Request body of POST /students (`StudentCreate`, lines 48-51). -/
structure StudentCreate where
  name : String
  age : Int
  course : String
deriving DecidableEq

/-- Request body of PUT /students (`StudentUpdate`, lines 53-56). -/
structure StudentUpdate where
  name : Option String
  age : Option Int
  course : Option String
deriving DecidableEq

/-- The whole persistent state: users and students tables plus the
in-process `chat_messages` list (line 265). -/
structure AppState where
  users : List User
  students : List Student
  chat : List ChatEntry
deriving DecidableEq

deriving instance DecidableEq for Except

/-- Function `verify_password` (lines 71-72), with the hash function as parameter. -/
def verify_password (hash : String → String) (password hashed : String) : Bool :=
  hash password == hashed

/-- Function `get_user_by_username` (lines 74-76): first row whose (unique) username
column equals the lowercased query. -/
def get_user_by_username (s : AppState) (username : String) : Option User :=
  s.users.find? (fun u => u.username == username.toLower)

/-- Function `get_user_by_api_key` (lines 78-80). -/
def get_user_by_api_key (s : AppState) (api_key : String) : Option User :=
  s.users.find? (fun u => u.api_key == api_key)

/-- Dependency `get_current_user` (lines 95-103).  `none` models an absent header;
an empty string is also falsy in Python, hence also 401. -/
def get_current_user (s : AppState) (api_key : Option String) : Except HTTPError User :=
  match api_key with
  | none => .error ⟨401, "Missing API Key"⟩
  | some k =>
    if k == "" then .error ⟨401, "Missing API Key"⟩
    else
      match get_user_by_api_key s k with
      | none => .error ⟨401, "Invalid API Key"⟩
      | some user =>
        if user.suspended then .error ⟨403, "User suspended"⟩
        else .ok user

/-- POST /register (lines 113-123).  `freshKey` is the key produced by the
`default_factory` call to `secrets.token_hex(16)` for the new row. -/
def register (hash : String → String) (s : AppState)
    (username password freshKey : String) :
    Except HTTPError AuthResponse × AppState :=
  let username_lower := username.toLower
  match get_user_by_username s username_lower with
  | some _ => (.error ⟨400, "Username already exists"⟩, s)
  | none =>
    let user : User :=
      { username := username_lower, hashed_password := hash password
        role := ROLE_GUEST, api_key := freshKey, suspended := false }
    (.ok ⟨user.username, user.api_key, user.role⟩,
      { s with users := s.users ++ [user] })

/-- POST /login (lines 125-134).  Note: it only reads the stored row and
returns the row fields; no state is written and no new key is generated. -/
def login (hash : String → String) (s : AppState) (username password : String) :
    Except HTTPError AuthResponse × AppState :=
  let username_lower := username.toLower
  match get_user_by_username s username_lower with
  | none => (.error ⟨401, "Invalid username or password"⟩, s)
  | some user =>
    if verify_password hash password user.hashed_password = false then
      (.error ⟨401, "Invalid username or password"⟩, s)
    else if user.suspended then (.error ⟨403, "User suspended"⟩, s)
    else (.ok ⟨user.username, user.api_key, user.role⟩, s)

/-- GET /users (lines 136-142). -/
def list_users (s : AppState) (api_key : Option String) :
    Except HTTPError (List (String × Nat × Bool)) × AppState :=
  match get_current_user s api_key with
  | .error e => (.error e, s)
  | .ok current_user =>
    if current_user.role ≠ ROLE_OWNER then
      (.error ⟨403, "Only owner can list users"⟩, s)
    else (.ok (s.users.map (fun u => (u.username, u.role, u.suspended))), s)

/-- DELETE /users/username (lines 144-156). -/
def delete_user (s : AppState) (api_key : Option String) (username : String) :
    Except HTTPError String × AppState :=
  match get_current_user s api_key with
  | .error e => (.error e, s)
  | .ok current_user =>
    if current_user.role ≠ ROLE_OWNER then
      (.error ⟨403, "Only owner can delete users"⟩, s)
    else
      let username_lower := username.toLower
      match get_user_by_username s username_lower with
      | none => (.error ⟨404, "User not found"⟩, s)
      | some user =>
        if user.role == ROLE_OWNER then (.error ⟨403, "Cannot delete owner"⟩, s)
        else
          (.ok ("User " ++ username_lower ++ " deleted"),
            { s with users := s.users.filter (fun u => u.username ≠ username_lower) })

/-- POST /users/username/suspend (lines 158-171). -/
def suspend_user (s : AppState) (api_key : Option String) (username : String) :
    Except HTTPError String × AppState :=
  match get_current_user s api_key with
  | .error e => (.error e, s)
  | .ok current_user =>
    if current_user.role ≠ ROLE_OWNER then
      (.error ⟨403, "Only owner can suspend users"⟩, s)
    else
      let username_lower := username.toLower
      match get_user_by_username s username_lower with
      | none => (.error ⟨404, "User not found"⟩, s)
      | some user =>
        if user.role == ROLE_OWNER then (.error ⟨403, "Cannot suspend owner"⟩, s)
        else
          (.ok ("User " ++ username_lower ++ " suspended"),
            { s with users := s.users.map (fun u =>
                if u.username == username_lower then { u with suspended := true } else u) })

/-- POST /users/username/unsuspend (lines 173-184). -/
def unsuspend_user (s : AppState) (api_key : Option String) (username : String) :
    Except HTTPError String × AppState :=
  match get_current_user s api_key with
  | .error e => (.error e, s)
  | .ok current_user =>
    if current_user.role ≠ ROLE_OWNER then
      (.error ⟨403, "Only owner can unsuspend users"⟩, s)
    else
      let username_lower := username.toLower
      match get_user_by_username s username_lower with
      | none => (.error ⟨404, "User not found"⟩, s)
      | some _ =>
        (.ok ("User " ++ username_lower ++ " unsuspended"),
          { s with users := s.users.map (fun u =>
              if u.username == username_lower then { u with suspended := false } else u) })

/-- POST /users/username/role (lines 186-203).  The checks happen in source
order: caller role, self target, owner assignment, role validity, lookup. -/
def change_user_role (s : AppState) (api_key : Option String)
    (username : String) (new_role : Nat) :
    Except HTTPError String × AppState :=
  match get_current_user s api_key with
  | .error e => (.error e, s)
  | .ok current_user =>
    if current_user.role ≠ ROLE_OWNER then
      (.error ⟨403, "Only owner can change user roles"⟩, s)
    else
      let username_lower := username.toLower
      if username_lower == current_user.username then
        (.error ⟨403, "Cannot change your own role"⟩, s)
      else if new_role == ROLE_OWNER then
        (.error ⟨403, "Cannot assign Owner role"⟩, s)
      else if new_role ≠ ROLE_GUEST ∧ new_role ≠ ROLE_VIP then
        (.error ⟨400, "Invalid role level"⟩, s)
      else
        match get_user_by_username s username_lower with
        | none => (.error ⟨404, "User not found"⟩, s)
        | some _ =>
          (.ok ("Role changed"),
            { s with users := s.users.map (fun u =>
                if u.username == username_lower then { u with role := new_role } else u) })

/-- SQLite rowid assignment for an INTEGER PRIMARY KEY column without
AUTOINCREMENT: one more than the largest id currently in the table
(1 when the table is empty).  This is what the INSERT issued by
`create_student` (line 212-213) gets back from the database. -/
def nextStudentId (students : List Student) : Nat :=
  (students.map Student.id).foldr max 0 + 1

/-- POST /students (lines 207-215). -/
def create_student (s : AppState) (api_key : Option String) (body : StudentCreate) :
    Except HTTPError Student × AppState :=
  match get_current_user s api_key with
  | .error e => (.error e, s)
  | .ok current_user =>
    if current_user.role < ROLE_VIP then
      (.error ⟨403, "Insufficient permissions to create student"⟩, s)
    else
      let new_student : Student :=
        { id := nextStudentId s.students, name := body.name
          age := body.age, course := body.course }
      (.ok new_student, { s with students := s.students ++ [new_student] })

/-- GET /students (lines 217-225).  `if course:` and `if age:` are Python
truthiness tests: a `None` filter, an empty course string and an age of 0
all skip the corresponding WHERE clause.  The SQL `=` on the course column
uses the default BINARY collation, i.e. case-sensitive string equality. -/
def list_students (s : AppState) (course : Option String) (age : Option Int)
    (api_key : Option String) :
    Except HTTPError (List Student) × AppState :=
  match get_current_user s api_key with
  | .error e => (.error e, s)
  | .ok _ =>
    let students := s.students
    let students :=
      match course with
      | none => students
      | some c => if c == "" then students else students.filter (fun st => st.course == c)
    let students :=
      match age with
      | none => students
      | some a => if a == 0 then students else students.filter (fun st => st.age == a)
    (.ok students, s)

/-- GET /students/id (lines 227-232).  `session.get` is primary-key lookup. -/
def get_student (s : AppState) (api_key : Option String) (student_id : Nat) :
    Except HTTPError Student × AppState :=
  match get_current_user s api_key with
  | .error e => (.error e, s)
  | .ok _ =>
    match s.students.find? (fun st => st.id == student_id) with
    | none => (.error ⟨404, "Student not found"⟩, s)
    | some student => (.ok student, s)

/-- PUT /students/id (lines 234-250).  Each field is applied only when it
`is not None` (identity test, not truthiness: age 0 and empty strings are
applied). -/
def update_student (s : AppState) (api_key : Option String) (student_id : Nat)
    (body : StudentUpdate) :
    Except HTTPError Student × AppState :=
  match get_current_user s api_key with
  | .error e => (.error e, s)
  | .ok current_user =>
    if current_user.role < ROLE_VIP then
      (.error ⟨403, "Insufficient permissions to update student"⟩, s)
    else
      match s.students.find? (fun st => st.id == student_id) with
      | none => (.error ⟨404, "Student not found"⟩, s)
      | some student =>
        let student := match body.name with | none => student | some n => { student with name := n }
        let student := match body.age with | none => student | some a => { student with age := a }
        let student := match body.course with | none => student | some c => { student with course := c }
        (.ok student,
          { s with students := s.students.map (fun st =>
              if st.id == student_id then student else st) })

/-- DELETE /students/id (lines 252-261). -/
def delete_student (s : AppState) (api_key : Option String) (student_id : Nat) :
    Except HTTPError String × AppState :=
  match get_current_user s api_key with
  | .error e => (.error e, s)
  | .ok current_user =>
    if current_user.role < ROLE_VIP then
      (.error ⟨403, "Insufficient permissions to delete student"⟩, s)
    else
      match s.students.find? (fun st => st.id == student_id) with
      | none => (.error ⟨404, "Student not found"⟩, s)
      | some _ =>
        (.ok "Student deleted",
          { s with students := s.students.filter (fun st => st.id ≠ student_id) })

/-- GET /chat (lines 267-270): `chat_messages[-100:]`, the last 100 entries.
The handler declares no authentication dependency: it takes no credentials
and cannot fail. -/
def get_chat_messages (s : AppState) : List ChatEntry :=
  s.chat.drop (s.chat.length - 100)

/-- POST /chat (lines 272-278): append the entry built from the caller and
the body text, then pop the oldest entry when the length exceeds 200.
The username field of the request body is never read. -/
def post_chat_message (s : AppState) (api_key : Option String) (message : ChatMessage) :
    Except HTTPError String × AppState :=
  match get_current_user s api_key with
  | .error e => (.error e, s)
  | .ok current_user =>
    let appended := s.chat ++ [⟨current_user.username, message.message⟩]
    let chat := if appended.length > 200 then appended.drop 1 else appended
    (.ok "Message sent", { s with chat := chat })

/-- Effect of `create_owner_user` on the first startup with an empty database
(lines 82-91): the bootstrap state.  `ownerKey` is the key generated by
`secrets.token_hex(16)` for the owner row. -/
def init (hash : String → String) (ownerKey : String) : AppState :=
  { users := [{ username := "anirudh", hashed_password := hash "Aaradhya2509"
                role := ROLE_OWNER, api_key := ownerKey, suspended := false }]
    students := []
    chat := [] }

/-- One request to any endpoint of the service, with arbitrary inputs. -/
inductive Step (hash : String → String) : AppState → AppState → Prop where
  | register (s : AppState) (u p k : String) :
      Step hash s (CampusCore.register hash s u p k).2
  | login (s : AppState) (u p : String) :
      Step hash s (CampusCore.login hash s u p).2
  | list_users (s : AppState) (ak : Option String) :
      Step hash s (CampusCore.list_users s ak).2
  | delete_user (s : AppState) (ak : Option String) (n : String) :
      Step hash s (CampusCore.delete_user s ak n).2
  | suspend_user (s : AppState) (ak : Option String) (n : String) :
      Step hash s (CampusCore.suspend_user s ak n).2
  | unsuspend_user (s : AppState) (ak : Option String) (n : String) :
      Step hash s (CampusCore.unsuspend_user s ak n).2
  | change_user_role (s : AppState) (ak : Option String) (n : String) (r : Nat) :
      Step hash s (CampusCore.change_user_role s ak n r).2
  | create_student (s : AppState) (ak : Option String) (b : StudentCreate) :
      Step hash s (CampusCore.create_student s ak b).2
  | list_students (s : AppState) (c : Option String) (a : Option Int) (ak : Option String) :
      Step hash s (CampusCore.list_students s c a ak).2
  | get_student (s : AppState) (ak : Option String) (i : Nat) :
      Step hash s (CampusCore.get_student s ak i).2
  | update_student (s : AppState) (ak : Option String) (i : Nat) (b : StudentUpdate) :
      Step hash s (CampusCore.update_student s ak i b).2
  | delete_student (s : AppState) (ak : Option String) (i : Nat) :
      Step hash s (CampusCore.delete_student s ak i).2
  | post_chat_message (s : AppState) (ak : Option String) (m : ChatMessage) :
      Step hash s (CampusCore.post_chat_message s ak m).2

/-- States reachable from the bootstrap state by any request sequence. -/
def Reachable (hash : String → String) (ownerKey : String) (s : AppState) : Prop :=
  Relation.ReflTransGen (Step hash) (init hash ownerKey) s

/-- Modelled from the spec: the case-insensitive major filter the spec
prescribes for the student list endpoint, used only as the comparison
point for the behaviour `list_students` actually implements. -/
def listByMajorCaseInsensitiveSpec (students : List Student) (major : String) : List Student :=
  students.filter (fun st => st.course.toLower == major.toLower)

/-- Last `n` elements of a list, in order: `l[-n:]` in Python. -/
def takeLast {α : Type} (n : Nat) (l : List α) : List α :=
  l.drop (l.length - n)

/-- Mapped chat entries a user produces for a list of texts. -/
def chatEntries (author : String) (ts : List String) : List ChatEntry :=
  ts.map (fun t => ⟨author, t⟩)

/-- Sequence of POST /chat requests with the given body texts, all carrying
the same credentials (the body username is irrelevant, see C9). -/
def postTexts (ak : Option String) (ts : List String) (s : AppState) : AppState :=
  ts.foldl (fun st t => (post_chat_message st ak ⟨"", t⟩).2) s

/-- Inductive invariant on the users table: usernames are pairwise distinct
(the UNIQUE column constraint), the bootstrap owner account exists with the
Owner role, and every Owner-role row is that account and is not suspended. -/
def UsersInv (users : List User) : Prop :=
  (users.map User.username).Nodup ∧
  (∃ u ∈ users, u.username = "anirudh" ∧ u.role = ROLE_OWNER) ∧
  (∀ u ∈ users, u.role = ROLE_OWNER → u.username = "anirudh" ∧ u.suspended = false)

/-- Global inductive invariant: users-table invariant plus the chat cap. -/
def Inv (s : AppState) : Prop :=
  UsersInv s.users ∧ s.chat.length ≤ 200

/-- Fixture for C1: one guest whose stored hash is the image of "pw" under
the identity hash and whose key, issued at registration, is "K1". -/
def c1State : AppState :=
  { users := [{ username := "alice", hashed_password := "pw", role := ROLE_GUEST
                api_key := "K1", suspended := false }]
    students := [], chat := [] }

/-- Fixture for C2: a VIP caller and students with ids 1, 2 and 3. -/
def c2State : AppState :=
  { users := [{ username := "vera", hashed_password := "x", role := ROLE_VIP
                api_key := "KV", suspended := false }]
    students := [⟨1, "ann", 20, "cs"⟩, ⟨2, "ben", 21, "math"⟩, ⟨3, "cid", 22, "cs"⟩]
    chat := [] }

/-- Fixture for C5: an authenticated guest and one student whose course is
the lower-case string "cs". -/
def c5State : AppState :=
  { users := [{ username := "alice", hashed_password := "x", role := ROLE_GUEST
                api_key := "K", suspended := false }]
    students := [⟨1, "bob", 20, "cs"⟩], chat := [] }

/-- Fixture for C6: no users at all (so no credential can possibly be
presented), one retained chat message. -/
def c6State : AppState :=
  { users := [], students := [], chat := [⟨"alice", "hi"⟩] }

/-- Fixture for C8 and C9: a guest and a VIP. -/
def c8State : AppState :=
  { users := [{ username := "gia", hashed_password := "x", role := ROLE_GUEST
                api_key := "KG", suspended := false },
              { username := "vera", hashed_password := "x", role := ROLE_VIP
                api_key := "KV", suspended := false }]
    students := [⟨1, "bob", 20, "cs"⟩], chat := [] }

end CampusCore

namespace CampusCore

/-- Rewriting lemma exposing `String.toLower` as a `List.map` over the
character data, so that concrete instances evaluate. -/
theorem toLower_eq_map (s : String) : s.toLower = ⟨s.data.map Char.toLower⟩ :=
  String.map_eq Char.toLower s

/-- Lowercasing a character is idempotent. -/
theorem char_toLower_idem (c : Char) : c.toLower.toLower = c.toLower := by
  by_cases h : c.toNat ≥ 65 ∧ c.toNat ≤ 90
  · have hv : (c.toNat + 32).isValidChar := Or.inl (by omega)
    have h1 : c.toLower = Char.ofNat (c.toNat + 32) := by
      simp only [Char.toLower]
      rw [if_pos h]
    have h2 : (Char.ofNat (c.toNat + 32)).toNat = c.toNat + 32 := by
      rw [Char.ofNat, dif_pos hv]
      rfl
    rw [h1]
    simp only [Char.toLower, h2]
    rw [if_neg (by omega)]
  · have h1 : c.toLower = c := by
      simp only [Char.toLower]
      rw [if_neg h]
    rw [h1, h1]

/-- Lowercasing a string is idempotent (used implicitly by the handlers,
which look up already-lowercased usernames through a helper that lowercases
again). -/
theorem string_toLower_idem (s : String) : s.toLower.toLower = s.toLower := by
  rw [toLower_eq_map, toLower_eq_map]
  dsimp only
  rw [List.map_map]
  have h : Char.toLower ∘ Char.toLower = Char.toLower := funext char_toLower_idem
  rw [h]

end CampusCore

namespace CampusCore

/-- C10: the student list endpoint treats falsy filter values as absent:
filtering with age 0 behaves like omitting the age filter, and filtering
with an empty course string behaves like omitting the course filter. -/
theorem c10_falsy_filters_ignored (s : AppState) (ak : Option String)
    (c : Option String) (a : Option Int) :
    list_students s c (some 0) ak = list_students s c none ak ∧
    list_students s (some "") a ak = list_students s none a ak := by
  constructor <;> rfl

/-- C6 (amended): GET /chat never authenticates anything: it takes no
credentials, cannot fail, and returns a suffix of the retained log of
length at most 100. -/
theorem c6_chat_read_needs_no_auth (s : AppState) :
    (get_chat_messages s).length ≤ 100 ∧ get_chat_messages s <:+ s.chat := by
  constructor
  · simp only [get_chat_messages, List.length_drop]
    omega
  · exact List.drop_suffix _ _

/-- C6 (counterexample): in a state holding one chat message and not a
single user account, so that no request can possibly carry a valid token,
the chat read operation still returns the message instead of failing with
Unauthenticated: the handler takes no credential at all. -/
theorem c6_unauthenticated_chat_read_succeeds_cex :
    get_chat_messages c6State = [⟨"alice", "hi"⟩] := by decide

/-- C1 (counterexample): a user holds token K1; a successful login for the
same user then returns that same token, and the token held before the login
still resolves to the user afterwards, not to Unauthenticated. -/
theorem c1_old_token_still_valid_cex :
    (login id c1State "alice" "pw").1 = .ok ⟨"alice", "K1", ROLE_GUEST⟩ ∧
    get_current_user (login id c1State "alice" "pw").2 (some "K1") =
      .ok { username := "alice", hashed_password := "pw", role := ROLE_GUEST
            api_key := "K1", suspended := false } := by
  constructor <;>
    (simp only [login, get_user_by_username, get_current_user,
      get_user_by_api_key, toLower_eq_map]; decide)

/-- C2 (counterexample): from students with ids 1, 2, 3, a VIP deletes
id 2 (a successful deletion leaving ids 1 and 3), and the next create is
assigned id 4 = max + 1, not the smallest unused positive integer 2. -/
theorem c2_id_not_smallest_gap_cex :
    (delete_student c2State (some "KV") 2).1 = .ok "Student deleted" ∧
    ((delete_student c2State (some "KV") 2).2).students.map Student.id = [1, 3] ∧
    (create_student (delete_student c2State (some "KV") 2).2 (some "KV")
        ⟨"new", 20, "cs"⟩).1 = .ok ⟨4, "new", 20, "cs"⟩ := by
  refine ⟨?_, ?_, ?_⟩ <;> decide

/-- C5 (counterexample): one student has course "cs"; listing with the
major filter "CS" returns the empty list, while the case-insensitive
subset the claim prescribes is nonempty — the filter is case-sensitive. -/
theorem c5_filter_is_case_sensitive_cex :
    (list_students c5State (some "CS") none (some "K")).1 = .ok [] ∧
    listByMajorCaseInsensitiveSpec c5State.students "CS" = [⟨1, "bob", 20, "cs"⟩] := by
  constructor
  · decide
  · simp only [listByMajorCaseInsensitiveSpec, toLower_eq_map]
    decide

end CampusCore

namespace CampusCore

/-- C9: the author stored with a posted chat message is the authenticated
caller resolved from the token, never the username field of the request
body: two posts differing only in that field produce identical results and
states, the post succeeds, and the entry appended at the end of the log
carries the caller username and the body text. -/
theorem c9_author_is_caller (s : AppState) (ak : Option String) (u : User)
    (hauth : get_current_user s ak = .ok u) (b1 b2 m : String) :
    post_chat_message s ak ⟨b1, m⟩ = post_chat_message s ak ⟨b2, m⟩ ∧
    (post_chat_message s ak ⟨b1, m⟩).1 = .ok "Message sent" ∧
    ((post_chat_message s ak ⟨b1, m⟩).2).chat.getLast? = some ⟨u.username, m⟩ := by
  refine ⟨rfl, ?_, ?_⟩
  · simp only [post_chat_message, hauth]
  · simp only [post_chat_message, hauth]
    split
    · next h =>
      rcases hc : s.chat with _ | ⟨x, xs⟩
      · rw [hc] at h
        simp at h
      · simp [List.getLast?_concat]
    · simp [List.getLast?_concat]

/-- C9 witness at a concrete instance: the guest gia posts with the body
username forged as vera. -/
theorem c9_author_is_caller_witness :
    get_current_user c8State (some "KG") =
      .ok { username := "gia", hashed_password := "x", role := ROLE_GUEST
            api_key := "KG", suspended := false } ∧
    (post_chat_message c8State (some "KG") ⟨"vera", "hello"⟩ =
        post_chat_message c8State (some "KG") ⟨"gia", "hello"⟩ ∧
      (post_chat_message c8State (some "KG") ⟨"vera", "hello"⟩).1 = .ok "Message sent" ∧
      ((post_chat_message c8State (some "KG") ⟨"vera", "hello"⟩).2).chat.getLast? =
        some ⟨"gia", "hello"⟩) :=
  ⟨by decide,
    c9_author_is_caller c8State (some "KG")
      { username := "gia", hashed_password := "x", role := ROLE_GUEST
        api_key := "KG", suspended := false }
      (by decide) "vera" "gia" "hello"⟩

/-- C1 (amended): a successful login issues no new token and invalidates
nothing: it leaves the state entirely unchanged, returns the api_key stored
with the user row it authenticated, and any token resolves after the login
exactly as it did before. -/
theorem c1_login_issues_no_new_token (hash : String → String) (s : AppState)
    (un pw : String) (r : AuthResponse)
    (hok : (login hash s un pw).1 = .ok r) :
    (login hash s un pw).2 = s ∧
    (∃ u, get_user_by_username s un.toLower = some u ∧
      r = ⟨u.username, u.api_key, u.role⟩) ∧
    ∀ t, get_current_user ((login hash s un pw).2) t = get_current_user s t := by
  have hstate : (login hash s un pw).2 = s := by
    simp only [login]
    cases hfind : get_user_by_username s un.toLower
    · rfl
    · dsimp only
      split
      · rfl
      · split <;> rfl
  refine ⟨hstate, ?_, fun t => by rw [hstate]⟩
  revert hok
  simp only [login]
  cases hfind : get_user_by_username s un.toLower
  · intro hok
    exact absurd hok (by simp)
  · next u =>
    dsimp only
    split
    · intro hok
      exact absurd hok (by simp)
    · split
      · intro hok
        exact absurd hok (by simp)
      · intro hok
        exact ⟨u, rfl, (Except.ok.inj hok).symm⟩

/-- C1 amended-theorem witness at the concrete instance of the
counterexample state. -/
theorem c1_login_issues_no_new_token_witness :
    (login id c1State "alice" "pw").1 = .ok ⟨"alice", "K1", ROLE_GUEST⟩ ∧
    ((login id c1State "alice" "pw").2 = c1State ∧
      (∃ u, get_user_by_username c1State "alice".toLower = some u ∧
        AuthResponse.mk "alice" "K1" ROLE_GUEST = ⟨u.username, u.api_key, u.role⟩) ∧
      ∀ t, get_current_user ((login id c1State "alice" "pw").2) t =
        get_current_user c1State t) :=
  ⟨by simp only [login, get_user_by_username, toLower_eq_map]; decide,
    c1_login_issues_no_new_token id c1State "alice" "pw" ⟨"alice", "K1", ROLE_GUEST⟩
      (by simp only [login, get_user_by_username, toLower_eq_map]; decide)⟩

end CampusCore

namespace CampusCore

/-- Upper bound of a list element by the foldr max over the list. -/
theorem le_foldr_max (l : List Nat) (a : Nat) (h : a ∈ l) : a ≤ l.foldr max 0 := by
  induction l with
  | nil => cases h
  | cons x xs ih =>
    rcases List.mem_cons.mp h with h | h
    · subst h
      exact Nat.le_max_left _ _
    · exact Nat.le_trans (ih h) (Nat.le_max_right _ _)

/-- C2 (amended): student ids follow the SQLite rowid policy, one more than
the current maximum id (not the smallest unused positive integer): a
VIP-or-above create is assigned `nextStudentId`, which is strictly greater
than every id currently in the table, so gaps left by deletions below the
maximum are never reused. -/
theorem c2_create_assigns_max_plus_one (s : AppState) (ck : Option String) (u : User)
    (b : StudentCreate) (hauth : get_current_user s ck = .ok u)
    (hrole : ROLE_VIP ≤ u.role) :
    (create_student s ck b).1 = .ok ⟨nextStudentId s.students, b.name, b.age, b.course⟩ ∧
    ((create_student s ck b).2).students =
      s.students ++ [⟨nextStudentId s.students, b.name, b.age, b.course⟩] ∧
    ∀ st ∈ s.students, st.id < nextStudentId s.students := by
  have hnot : ¬ (u.role < ROLE_VIP) := Nat.not_lt.mpr hrole
  refine ⟨?_, ?_, ?_⟩
  · simp only [create_student, hauth, if_neg hnot]
  · simp only [create_student, hauth, if_neg hnot]
  · intro st hst
    have hle : st.id ≤ (s.students.map Student.id).foldr max 0 :=
      le_foldr_max _ _ (List.mem_map_of_mem _ hst)
    simp only [nextStudentId]
    omega

/-- C2 amended-theorem witness on the counterexample state: vera is a VIP
and the assigned id there is nextStudentId = 4. -/
theorem c2_create_assigns_max_plus_one_witness :
    get_current_user c2State (some "KV") =
      .ok { username := "vera", hashed_password := "x", role := ROLE_VIP
            api_key := "KV", suspended := false } ∧
    ROLE_VIP ≤ ROLE_VIP ∧
    ((create_student c2State (some "KV") ⟨"new", 20, "cs"⟩).1 =
        .ok ⟨nextStudentId c2State.students, "new", 20, "cs"⟩ ∧
      ((create_student c2State (some "KV") ⟨"new", 20, "cs"⟩).2).students =
        c2State.students ++ [⟨nextStudentId c2State.students, "new", 20, "cs"⟩] ∧
      ∀ st ∈ c2State.students, st.id < nextStudentId c2State.students) :=
  ⟨by decide, Nat.le_refl _,
    c2_create_assigns_max_plus_one c2State (some "KV")
      { username := "vera", hashed_password := "x", role := ROLE_VIP
        api_key := "KV", suspended := false }
      ⟨"new", 20, "cs"⟩ (by decide) (Nat.le_refl _)⟩

/-- C5 (amended): for any authenticated caller, a truthy course filter
selects exactly the students whose course equals the filter string under
case-sensitive equality; supplying a truthy age filter as well selects
exactly the students matching both filters. -/
theorem c5_filter_exact_case_sensitive (s : AppState) (ak : Option String) (u : User)
    (hauth : get_current_user s ak = .ok u) (c : String) (hc : c ≠ "")
    (a : Int) (ha : a ≠ 0) :
    (list_students s (some c) none ak).1 =
      .ok (s.students.filter (fun st => st.course == c)) ∧
    (list_students s (some c) (some a) ak).1 =
      .ok (s.students.filter (fun st => st.age == a && st.course == c)) := by
  have hcb : (c == "") = false := beq_eq_false_iff_ne.mpr hc
  have hab : (a == 0) = false := beq_eq_false_iff_ne.mpr ha
  constructor
  · simp [list_students, hauth, hcb]
  · simp [list_students, hauth, hcb, hab, List.filter_filter]

/-- C5 amended-theorem witness on the counterexample state. -/
theorem c5_filter_exact_case_sensitive_witness :
    get_current_user c5State (some "K") =
      .ok { username := "alice", hashed_password := "x", role := ROLE_GUEST
            api_key := "K", suspended := false } ∧
    "CS" ≠ "" ∧ (7 : Int) ≠ 0 ∧
    ((list_students c5State (some "CS") none (some "K")).1 =
        .ok (c5State.students.filter (fun st => st.course == "CS")) ∧
      (list_students c5State (some "CS") (some 7) (some "K")).1 =
        .ok (c5State.students.filter (fun st => st.age == 7 && st.course == "CS"))) :=
  ⟨by decide, by decide, by decide,
    c5_filter_exact_case_sensitive c5State (some "K")
      { username := "alice", hashed_password := "x", role := ROLE_GUEST
        api_key := "K", suspended := false }
      (by decide) "CS" (by decide) 7 (by decide)⟩

end CampusCore

namespace CampusCore

/-- C7: registering two usernames equal up to letter case makes the second
call fail with Conflict (400, duplicate username) and leave the state of
the first call untouched, whatever the first call did; and any successful
registration stores the username lowercased with the hashed password, the
default Guest role and the issued key, returning that token and role. -/
theorem c7_register_conflict_and_normalization (hash : String → String)
    (s s2 : AppState) (u1 p1 k1 u2 p2 k2 : String)
    (hcase : u1.toLower = u2.toLower)
    (u p k : String) (r : AuthResponse)
    (hok : (register hash s2 u p k).1 = .ok r) :
    ((register hash (register hash s u1 p1 k1).2 u2 p2 k2).1 =
        .error ⟨400, "Username already exists"⟩ ∧
      (register hash (register hash s u1 p1 k1).2 u2 p2 k2).2 =
        (register hash s u1 p1 k1).2) ∧
    (r = ⟨u.toLower, k, ROLE_GUEST⟩ ∧
      (register hash s2 u p k).2.users =
        s2.users ++ [⟨u.toLower, hash p, ROLE_GUEST, k, false⟩]) := by
  have hkey : u2.toLower.toLower = u1.toLower := by
    rw [← hcase, string_toLower_idem]
  constructor
  · have hsecond : ∀ s3 : AppState,
        get_user_by_username s3 u2.toLower ≠ none →
        (register hash s3 u2 p2 k2).1 = .error ⟨400, "Username already exists"⟩ ∧
        (register hash s3 u2 p2 k2).2 = s3 := by
      intro s3 hne
      simp only [register]
      cases hfind : get_user_by_username s3 u2.toLower
      · exact absurd hfind hne
      · exact ⟨rfl, rfl⟩
    apply hsecond
    simp only [register]
    cases hfind : get_user_by_username s u1.toLower
    · dsimp only
      simp only [get_user_by_username, hkey]
      rw [List.find?_append]
      simp [hcase]
    · dsimp only
      simp only [get_user_by_username, hkey] at hfind ⊢
      rw [string_toLower_idem] at hfind
      simp [hfind]
  · revert hok
    simp only [register]
    cases hfind : get_user_by_username s2 u.toLower
    · intro hok
      refine ⟨(Except.ok.inj hok).symm, rfl⟩
    · intro hok
      exact absurd hok (by simp)

/-- C7 witness: registering Bob then bOB; the second fails with Conflict,
and the successful first call is also the instance for the success half. -/
theorem c7_register_conflict_and_normalization_witness :
    "Bob".toLower = "bOB".toLower ∧
    (register id (AppState.mk [] [] []) "Bob" "p" "k").1 = .ok ⟨"Bob".toLower, "k", ROLE_GUEST⟩ ∧
    (((register id (register id (AppState.mk [] [] []) "Bob" "p" "k").2 "bOB" "q" "k2").1 =
        .error ⟨400, "Username already exists"⟩ ∧
      (register id (register id (AppState.mk [] [] []) "Bob" "p" "k").2 "bOB" "q" "k2").2 =
        (register id (AppState.mk [] [] []) "Bob" "p" "k").2) ∧
      (AuthResponse.mk "Bob".toLower "k" ROLE_GUEST = ⟨"Bob".toLower, "k", ROLE_GUEST⟩ ∧
        (register id (AppState.mk [] [] []) "Bob" "p" "k").2.users =
          [] ++ [⟨"Bob".toLower, id "p", ROLE_GUEST, "k", false⟩])) :=
  ⟨by simp only [toLower_eq_map]; decide,
    by simp only [register, get_user_by_username, toLower_eq_map]; decide,
    c7_register_conflict_and_normalization id (AppState.mk [] [] []) (AppState.mk [] [] [])
      "Bob" "p" "k" "bOB" "q" "k2" (by simp only [toLower_eq_map]; decide)
      "Bob" "p" "k" ⟨"Bob".toLower, "k", ROLE_GUEST⟩
      (by simp only [register, get_user_by_username, toLower_eq_map]; decide)⟩

end CampusCore

namespace CampusCore

/-- C8: an authenticated Guest caller gets Forbidden (403) from student
create, update and delete, with the state unchanged, while a VIP-or-above
caller is never rejected by the role check: create succeeds outright and
update and delete either succeed or fail only with NotFound (404). -/
theorem c8_guest_forbidden_vip_allowed (s : AppState) (ak : Option String) (u : User)
    (hauth : get_current_user s ak = .ok u)
    (b : StudentCreate) (i : Nat) (upd : StudentUpdate) :
    (u.role = ROLE_GUEST →
      ((create_student s ak b).1 =
          .error ⟨403, "Insufficient permissions to create student"⟩ ∧
        (create_student s ak b).2 = s) ∧
      ((update_student s ak i upd).1 =
          .error ⟨403, "Insufficient permissions to update student"⟩ ∧
        (update_student s ak i upd).2 = s) ∧
      ((delete_student s ak i).1 =
          .error ⟨403, "Insufficient permissions to delete student"⟩ ∧
        (delete_student s ak i).2 = s)) ∧
    (ROLE_VIP ≤ u.role →
      (∃ st, (create_student s ak b).1 = .ok st) ∧
      ((update_student s ak i upd).1 = .error ⟨404, "Student not found"⟩ ∨
        ∃ st, (update_student s ak i upd).1 = .ok st) ∧
      ((delete_student s ak i).1 = .error ⟨404, "Student not found"⟩ ∨
        ∃ d, (delete_student s ak i).1 = .ok d)) := by
  constructor
  · intro hg
    have hlt : u.role < ROLE_VIP := by rw [hg]; decide
    refine ⟨⟨?_, ?_⟩, ⟨?_, ?_⟩, ⟨?_, ?_⟩⟩ <;>
      simp only [create_student, update_student, delete_student, hauth, if_pos hlt]
  · intro hv
    have hnot : ¬ (u.role < ROLE_VIP) := Nat.not_lt.mpr hv
    refine ⟨?_, ?_, ?_⟩
    · exact ⟨⟨nextStudentId s.students, b.name, b.age, b.course⟩,
        by simp only [create_student, hauth, if_neg hnot]⟩
    · simp only [update_student, hauth, if_neg hnot]
      cases hfind : s.students.find? (fun st => st.id == i)
      · exact Or.inl rfl
      · exact Or.inr ⟨_, rfl⟩
    · simp only [delete_student, hauth, if_neg hnot]
      cases hfind : s.students.find? (fun st => st.id == i)
      · exact Or.inl rfl
      · exact Or.inr ⟨_, rfl⟩

/-- C8 witness: the guest gia is rejected on the fixture state (and the
VIP half of the statement is carried along at the same instance). -/
theorem c8_guest_forbidden_vip_allowed_witness :
    get_current_user c8State (some "KG") =
      .ok ⟨"gia", "x", ROLE_GUEST, "KG", false⟩ ∧
    ((User.mk "gia" "x" ROLE_GUEST "KG" false).role = ROLE_GUEST →
      ((create_student c8State (some "KG") ⟨"n", 1, "c"⟩).1 =
          .error ⟨403, "Insufficient permissions to create student"⟩ ∧
        (create_student c8State (some "KG") ⟨"n", 1, "c"⟩).2 = c8State) ∧
      ((update_student c8State (some "KG") 1 ⟨none, none, none⟩).1 =
          .error ⟨403, "Insufficient permissions to update student"⟩ ∧
        (update_student c8State (some "KG") 1 ⟨none, none, none⟩).2 = c8State) ∧
      ((delete_student c8State (some "KG") 1).1 =
          .error ⟨403, "Insufficient permissions to delete student"⟩ ∧
        (delete_student c8State (some "KG") 1).2 = c8State)) ∧
    (ROLE_VIP ≤ (User.mk "gia" "x" ROLE_GUEST "KG" false).role →
      (∃ st, (create_student c8State (some "KG") ⟨"n", 1, "c"⟩).1 = .ok st) ∧
      ((update_student c8State (some "KG") 1 ⟨none, none, none⟩).1 =
          .error ⟨404, "Student not found"⟩ ∨
        ∃ st, (update_student c8State (some "KG") 1 ⟨none, none, none⟩).1 = .ok st) ∧
      ((delete_student c8State (some "KG") 1).1 = .error ⟨404, "Student not found"⟩ ∨
        ∃ d, (delete_student c8State (some "KG") 1).1 = .ok d)) :=
  ⟨by decide,
    (c8_guest_forbidden_vip_allowed c8State (some "KG")
      ⟨"gia", "x", ROLE_GUEST, "KG", false⟩
      (by decide) ⟨"n", 1, "c"⟩ 1 ⟨none, none, none⟩).1,
    (c8_guest_forbidden_vip_allowed c8State (some "KG")
      ⟨"gia", "x", ROLE_GUEST, "KG", false⟩
      (by decide) ⟨"n", 1, "c"⟩ 1 ⟨none, none, none⟩).2⟩

end CampusCore

namespace CampusCore

/-- Concrete fact: the bootstrap username is already lowercase. -/
theorem anirudh_toLower : "anirudh".toLower = "anirudh" := by
  rw [toLower_eq_map]
  decide

/-- With pairwise-distinct usernames, a username determines the row. -/
theorem users_username_inj {users : List User}
    (hnd : (users.map User.username).Nodup)
    {u v : User} (hu : u ∈ users) (hv : v ∈ users)
    (h : u.username = v.username) : u = v := by
  induction users with
  | nil => cases hu
  | cons w ws ih =>
    rw [List.map_cons, List.nodup_cons] at hnd
    obtain ⟨hw, hnd2⟩ := hnd
    rcases List.mem_cons.mp hu with hu1 | hu1
    · rcases List.mem_cons.mp hv with hv1 | hv1
      · rw [hu1, hv1]
      · have hmem : v.username ∈ ws.map User.username := List.mem_map_of_mem _ hv1
        rw [hu1] at h
        exact absurd (by rw [h]; exact hmem) hw
    · rcases List.mem_cons.mp hv with hv1 | hv1
      · have hmem : u.username ∈ ws.map User.username := List.mem_map_of_mem _ hu1
        rw [hv1] at h
        exact absurd (by rw [← h]; exact hmem) hw
      · exact ih hnd2 hu1 hv1

/-- A successful username lookup returns a member row whose username is the
lowercased query. -/
theorem lookup_some_username {s : AppState} {n : String} {v : User}
    (h : get_user_by_username s n = some v) :
    v ∈ s.users ∧ v.username = n.toLower := by
  refine ⟨List.mem_of_find?_eq_some h, ?_⟩
  have := List.find?_some h
  simpa using this

/-- A failed username lookup means no member row carries the lowercased
query as its username. -/
theorem lookup_none_username {s : AppState} {n : String}
    (h : get_user_by_username s n = none) :
    ∀ v ∈ s.users, v.username ≠ n.toLower := by
  intro v hv
  have := List.find?_eq_none.mp h v hv
  simpa using this

/-- Under the users invariant, the row named anirudh has the Owner role. -/
theorem owner_of_username_anirudh {users : List User}
    (h : UsersInv users) {v : User} (hv : v ∈ users)
    (hname : v.username = "anirudh") : v.role = ROLE_OWNER := by
  obtain ⟨hnd, ⟨w, hw, hwname, hwrole⟩, _⟩ := h
  have hvw : v = w := users_username_inj hnd hv hw (by rw [hname, hwname])
  rw [hvw]
  exact hwrole

/-- A row update that does not touch the username column keeps the list of
usernames unchanged. -/
theorem map_username_of_update (users : List User) (f : User → User)
    (hf : ∀ u, (f u).username = u.username) :
    (users.map f).map User.username = users.map User.username := by
  rw [List.map_map]
  exact List.map_congr_left (fun u _ => hf u)

/-- The authenticated caller is a member of the users table. -/
theorem current_user_mem {s : AppState} {ak : Option String} {u : User}
    (h : get_current_user s ak = .ok u) : u ∈ s.users := by
  revert h
  unfold get_current_user
  cases ak
  · intro h
    cases h
  · next k =>
    dsimp only
    split
    · intro h
      cases h
    · cases hfind : get_user_by_api_key s k
      · intro h
        cases h
      · next v =>
        dsimp only
        split
        · intro h
          cases h
        · intro h
          cases h
          exact List.mem_of_find?_eq_some hfind

end CampusCore

namespace CampusCore

/-- Registration preserves the users invariant: it only adds a fresh
lowercased username with the Guest role. -/
theorem usersInv_register (hash : String → String) (s : AppState)
    (un p k : String) (h : UsersInv s.users) :
    UsersInv ((register hash s un p k).2).users := by
  simp only [register]
  cases hfind : get_user_by_username s un.toLower
  · dsimp only
    obtain ⟨hnd, ⟨w, hw, hwname, hwrole⟩, hall⟩ := h
    have hfresh : ∀ v ∈ s.users, v.username ≠ un.toLower := by
      intro v hv
      have := lookup_none_username hfind v hv
      rw [string_toLower_idem] at this
      exact this
    refine ⟨?_, ⟨w, List.mem_append_left _ hw, hwname, hwrole⟩, ?_⟩
    · rw [List.map_append]
      rw [List.nodup_append]
      refine ⟨hnd, List.nodup_singleton _, ?_⟩
      intro a ha hb
      simp only [List.map_cons, List.map_nil, List.mem_singleton] at hb
      obtain ⟨v, hv, hva⟩ := List.mem_map.mp ha
      exact hfresh v hv (by rw [hva, hb])
    · intro v hv hvrole
      rcases List.mem_append.mp hv with hv | hv
      · exact hall v hv hvrole
      · simp only [List.mem_singleton] at hv
        subst hv
        simp [ROLE_GUEST, ROLE_OWNER] at hvrole
  · exact h

/-- User deletion preserves the users invariant: the Owner row is never the
deleted target. -/
theorem usersInv_delete_user (s : AppState) (ak : Option String) (n : String)
    (h : UsersInv s.users) : UsersInv ((delete_user s ak n).2).users := by
  unfold delete_user
  cases hauth : get_current_user s ak
  · exact h
  · dsimp only
    split
    · exact h
    · cases hfind : get_user_by_username s n.toLower
      · exact h
      · next user =>
        dsimp only
        split
        · exact h
        · next howner =>
          dsimp only
          obtain ⟨hmem, hname⟩ := lookup_some_username hfind
          rw [string_toLower_idem] at hname
          have hrole : user.role ≠ ROLE_OWNER := by
            simpa using howner
          have hne : n.toLower ≠ "anirudh" := by
            intro hcon
            exact hrole (owner_of_username_anirudh h hmem (by rw [hname, hcon]))
          obtain ⟨hnd, ⟨w, hw, hwname, hwrole⟩, hall⟩ := h
          refine ⟨?_, ⟨w, ?_, hwname, hwrole⟩, ?_⟩
          · exact List.Nodup.sublist
              (List.Sublist.map User.username (List.filter_sublist _)) hnd
          · rw [List.mem_filter]
            refine ⟨hw, ?_⟩
            simp only [decide_eq_true_eq]
            rw [hwname]
            exact fun hcon => hne hcon.symm
          · intro v hv hvrole
            exact hall v (List.mem_of_mem_filter hv) hvrole

end CampusCore

namespace CampusCore

/-- Suspension preserves the users invariant: the Owner row is never the
suspended target. -/
theorem usersInv_suspend_user (s : AppState) (ak : Option String) (n : String)
    (h : UsersInv s.users) : UsersInv ((suspend_user s ak n).2).users := by
  unfold suspend_user
  cases hauth : get_current_user s ak
  · exact h
  · dsimp only
    split
    · exact h
    · cases hfind : get_user_by_username s n.toLower
      · exact h
      · next user =>
        dsimp only
        split
        · exact h
        · next howner =>
          dsimp only
          obtain ⟨hmem, hname⟩ := lookup_some_username hfind
          rw [string_toLower_idem] at hname
          have hrole : user.role ≠ ROLE_OWNER := by
            simpa using howner
          have hne : n.toLower ≠ "anirudh" := by
            intro hcon
            exact hrole (owner_of_username_anirudh h hmem (by rw [hname, hcon]))
          obtain ⟨hnd, ⟨w, hw, hwname, hwrole⟩, hall⟩ := h
          have hwcond : (w.username == n.toLower) = false := by
            rw [beq_eq_false_iff_ne, hwname]
            exact fun hc => hne hc.symm
          refine ⟨?_, ?_, ?_⟩
          · rw [map_username_of_update]
            · exact hnd
            · intro u
              dsimp only
              split <;> rfl
          · refine ⟨(fun u => if u.username == n.toLower then { u with suspended := true } else u) w,
              List.mem_map_of_mem _ hw, ?_⟩
            dsimp only
            rw [hwcond]
            exact ⟨hwname, hwrole⟩
          · intro v hv hvrole
            obtain ⟨u0, hu0, rfl⟩ := List.mem_map.mp hv
            by_cases hcond : (u0.username == n.toLower) = true
            · rw [if_pos hcond] at hvrole ⊢
              have hu0role : u0.role = ROLE_OWNER := hvrole
              have := (hall u0 hu0 hu0role).1
              rw [beq_iff_eq] at hcond
              exact absurd (by rw [← hcond, this]) hne
            · rw [if_neg hcond] at hvrole ⊢
              exact hall u0 hu0 hvrole

/-- Unsuspension preserves the users invariant: it never changes a role or
a username and only clears the suspended flag. -/
theorem usersInv_unsuspend_user (s : AppState) (ak : Option String) (n : String)
    (h : UsersInv s.users) : UsersInv ((unsuspend_user s ak n).2).users := by
  unfold unsuspend_user
  cases hauth : get_current_user s ak
  · exact h
  · dsimp only
    split
    · exact h
    · cases hfind : get_user_by_username s n.toLower
      · exact h
      · dsimp only
        obtain ⟨hnd, ⟨w, hw, hwname, hwrole⟩, hall⟩ := h
        refine ⟨?_, ?_, ?_⟩
        · rw [map_username_of_update]
          · exact hnd
          · intro u
            dsimp only
            split <;> rfl
        · refine ⟨(fun u => if u.username == n.toLower then { u with suspended := false } else u) w,
            List.mem_map_of_mem _ hw, ?_⟩
          dsimp only
          split <;> exact ⟨hwname, hwrole⟩
        · intro v hv hvrole
          obtain ⟨u0, hu0, rfl⟩ := List.mem_map.mp hv
          by_cases hcond : (u0.username == n.toLower) = true
          · rw [if_pos hcond] at hvrole ⊢
            have := hall u0 hu0 hvrole
            exact ⟨this.1, rfl⟩
          · rw [if_neg hcond] at hvrole ⊢
            exact hall u0 hu0 hvrole

/-- Role change preserves the users invariant: the caller must be the
Owner, the Owner cannot target itself, and the Owner role is never
assigned. -/
theorem usersInv_change_user_role (s : AppState) (ak : Option String)
    (n : String) (r : Nat) (h : UsersInv s.users) :
    UsersInv ((change_user_role s ak n r).2).users := by
  unfold change_user_role
  cases hauth : get_current_user s ak
  · exact h
  · next caller =>
    dsimp only
    split
    · exact h
    · next hcaller =>
      have hcrole : caller.role = ROLE_OWNER := by
        by_contra hc
        exact hcaller hc
      have hcname : caller.username = "anirudh" :=
        ((h.2.2) caller (current_user_mem hauth) hcrole).1
      split
      · exact h
      · next hself =>
        split
        · exact h
        · next hassign =>
          split
          · exact h
          · cases hfind : get_user_by_username s n.toLower
            · exact h
            · dsimp only
              have hne : n.toLower ≠ "anirudh" := by
                intro hcon
                apply hself
                rw [hcon, hcname]
                exact beq_self_eq_true _
              have hrne : r ≠ ROLE_OWNER := by
                simpa using hassign
              obtain ⟨hnd, ⟨w, hw, hwname, hwrole⟩, hall⟩ := h
              have hwcond : (w.username == n.toLower) = false := by
                rw [beq_eq_false_iff_ne, hwname]
                exact fun hc => hne hc.symm
              refine ⟨?_, ?_, ?_⟩
              · rw [map_username_of_update]
                · exact hnd
                · intro u
                  dsimp only
                  split <;> rfl
              · refine ⟨(fun u => if u.username == n.toLower then { u with role := r } else u) w,
                  List.mem_map_of_mem _ hw, ?_⟩
                dsimp only
                rw [hwcond]
                exact ⟨hwname, hwrole⟩
              · intro v hv hvrole
                obtain ⟨u0, hu0, rfl⟩ := List.mem_map.mp hv
                by_cases hcond : (u0.username == n.toLower) = true
                · rw [if_pos hcond] at hvrole
                  exact absurd hvrole hrne
                · rw [if_neg hcond] at hvrole ⊢
                  exact hall u0 hu0 hvrole

end CampusCore

namespace CampusCore

/-- Login writes nothing. -/
theorem login_snd (hash : String → String) (s : AppState) (un pw : String) :
    (login hash s un pw).2 = s := by
  simp only [login]
  cases hfind : get_user_by_username s un.toLower
  · rfl
  · dsimp only
    split
    · rfl
    · split <;> rfl

/-- Listing users writes nothing. -/
theorem list_users_snd (s : AppState) (ak : Option String) :
    (list_users s ak).2 = s := by
  unfold list_users
  cases hauth : get_current_user s ak
  · rfl
  · dsimp only
    split <;> rfl

/-- Listing students writes nothing. -/
theorem list_students_snd (s : AppState) (c : Option String) (a : Option Int)
    (ak : Option String) : (list_students s c a ak).2 = s := by
  unfold list_students
  cases hauth : get_current_user s ak
  · rfl
  · rfl

/-- Reading one student writes nothing. -/
theorem get_student_snd (s : AppState) (ak : Option String) (i : Nat) :
    (get_student s ak i).2 = s := by
  unfold get_student
  cases hauth : get_current_user s ak
  · rfl
  · dsimp only
    cases hfind : s.students.find? (fun st => st.id == i) <;> rfl

/-- Registration leaves students and chat unchanged. -/
theorem register_chat_students (hash : String → String) (s : AppState)
    (un p k : String) :
    ((register hash s un p k).2).chat = s.chat ∧
    ((register hash s un p k).2).students = s.students := by
  simp only [register]
  cases hfind : get_user_by_username s un.toLower
  · exact ⟨rfl, rfl⟩
  · exact ⟨rfl, rfl⟩

/-- User deletion leaves students and chat unchanged. -/
theorem delete_user_chat_students (s : AppState) (ak : Option String) (n : String) :
    ((delete_user s ak n).2).chat = s.chat ∧
    ((delete_user s ak n).2).students = s.students := by
  unfold delete_user
  cases hauth : get_current_user s ak
  · exact ⟨rfl, rfl⟩
  · dsimp only
    split
    · exact ⟨rfl, rfl⟩
    · cases hfind : get_user_by_username s n.toLower
      · exact ⟨rfl, rfl⟩
      · dsimp only
        split <;> exact ⟨rfl, rfl⟩

/-- Suspension leaves students and chat unchanged. -/
theorem suspend_user_chat_students (s : AppState) (ak : Option String) (n : String) :
    ((suspend_user s ak n).2).chat = s.chat ∧
    ((suspend_user s ak n).2).students = s.students := by
  unfold suspend_user
  cases hauth : get_current_user s ak
  · exact ⟨rfl, rfl⟩
  · dsimp only
    split
    · exact ⟨rfl, rfl⟩
    · cases hfind : get_user_by_username s n.toLower
      · exact ⟨rfl, rfl⟩
      · dsimp only
        split <;> exact ⟨rfl, rfl⟩

/-- Unsuspension leaves students and chat unchanged. -/
theorem unsuspend_user_chat_students (s : AppState) (ak : Option String) (n : String) :
    ((unsuspend_user s ak n).2).chat = s.chat ∧
    ((unsuspend_user s ak n).2).students = s.students := by
  unfold unsuspend_user
  cases hauth : get_current_user s ak
  · exact ⟨rfl, rfl⟩
  · dsimp only
    split
    · exact ⟨rfl, rfl⟩
    · cases hfind : get_user_by_username s n.toLower
      · exact ⟨rfl, rfl⟩
      · exact ⟨rfl, rfl⟩

/-- Role change leaves students and chat unchanged. -/
theorem change_user_role_chat_students (s : AppState) (ak : Option String)
    (n : String) (r : Nat) :
    ((change_user_role s ak n r).2).chat = s.chat ∧
    ((change_user_role s ak n r).2).students = s.students := by
  unfold change_user_role
  cases hauth : get_current_user s ak
  · exact ⟨rfl, rfl⟩
  · dsimp only
    split
    · exact ⟨rfl, rfl⟩
    · split
      · exact ⟨rfl, rfl⟩
      · split
        · exact ⟨rfl, rfl⟩
        · split
          · exact ⟨rfl, rfl⟩
          · cases hfind : get_user_by_username s n.toLower
            · exact ⟨rfl, rfl⟩
            · exact ⟨rfl, rfl⟩

/-- Student creation leaves users and chat unchanged. -/
theorem create_student_users_chat (s : AppState) (ak : Option String)
    (b : StudentCreate) :
    ((create_student s ak b).2).users = s.users ∧
    ((create_student s ak b).2).chat = s.chat := by
  unfold create_student
  cases hauth : get_current_user s ak
  · exact ⟨rfl, rfl⟩
  · dsimp only
    split <;> exact ⟨rfl, rfl⟩

/-- Student update leaves users and chat unchanged. -/
theorem update_student_users_chat (s : AppState) (ak : Option String)
    (i : Nat) (b : StudentUpdate) :
    ((update_student s ak i b).2).users = s.users ∧
    ((update_student s ak i b).2).chat = s.chat := by
  unfold update_student
  cases hauth : get_current_user s ak
  · exact ⟨rfl, rfl⟩
  · dsimp only
    split
    · exact ⟨rfl, rfl⟩
    · cases hfind : s.students.find? (fun st => st.id == i)
      · exact ⟨rfl, rfl⟩
      · exact ⟨rfl, rfl⟩

/-- Student deletion leaves users and chat unchanged. -/
theorem delete_student_users_chat (s : AppState) (ak : Option String) (i : Nat) :
    ((delete_student s ak i).2).users = s.users ∧
    ((delete_student s ak i).2).chat = s.chat := by
  unfold delete_student
  cases hauth : get_current_user s ak
  · exact ⟨rfl, rfl⟩
  · dsimp only
    split
    · exact ⟨rfl, rfl⟩
    · cases hfind : s.students.find? (fun st => st.id == i)
      · exact ⟨rfl, rfl⟩
      · exact ⟨rfl, rfl⟩

/-- Posting to the chat leaves users and students unchanged. -/
theorem post_chat_message_users (s : AppState) (ak : Option String)
    (m : ChatMessage) :
    ((post_chat_message s ak m).2).users = s.users ∧
    ((post_chat_message s ak m).2).students = s.students := by
  unfold post_chat_message
  cases hauth : get_current_user s ak
  · exact ⟨rfl, rfl⟩
  · exact ⟨rfl, rfl⟩

/-- Posting to the chat keeps the retained log within the cap. -/
theorem post_chat_message_len (s : AppState) (ak : Option String)
    (m : ChatMessage) (h : s.chat.length ≤ 200) :
    ((post_chat_message s ak m).2).chat.length ≤ 200 := by
  unfold post_chat_message
  cases hauth : get_current_user s ak
  · exact h
  · dsimp only
    split
    · next hgt =>
      simp only [List.length_drop, List.length_append, List.length_cons, List.length_nil]
      omega
    · next hle =>
      simp only [List.length_append, List.length_cons, List.length_nil]
      simp only [List.length_append, List.length_cons, List.length_nil, Nat.not_lt] at hle
      omega

end CampusCore

namespace CampusCore

/-- Every single request preserves the global invariant. -/
theorem step_inv (hash : String → String) {s s2 : AppState}
    (hst : Step hash s s2) (h : Inv s) : Inv s2 := by
  obtain ⟨hu, hc⟩ := h
  cases hst with
  | register un p k =>
    exact ⟨usersInv_register hash s un p k hu,
      by rw [(register_chat_students hash s un p k).1]; exact hc⟩
  | login un p =>
    rw [login_snd]
    exact ⟨hu, hc⟩
  | list_users ak =>
    rw [list_users_snd]
    exact ⟨hu, hc⟩
  | delete_user ak n =>
    exact ⟨usersInv_delete_user s ak n hu,
      by rw [(delete_user_chat_students s ak n).1]; exact hc⟩
  | suspend_user ak n =>
    exact ⟨usersInv_suspend_user s ak n hu,
      by rw [(suspend_user_chat_students s ak n).1]; exact hc⟩
  | unsuspend_user ak n =>
    exact ⟨usersInv_unsuspend_user s ak n hu,
      by rw [(unsuspend_user_chat_students s ak n).1]; exact hc⟩
  | change_user_role ak n r =>
    exact ⟨usersInv_change_user_role s ak n r hu,
      by rw [(change_user_role_chat_students s ak n r).1]; exact hc⟩
  | create_student ak b =>
    refine ⟨?_, ?_⟩
    · rw [(create_student_users_chat s ak b).1]
      exact hu
    · rw [(create_student_users_chat s ak b).2]
      exact hc
  | list_students c a ak =>
    rw [list_students_snd]
    exact ⟨hu, hc⟩
  | get_student ak i =>
    rw [get_student_snd]
    exact ⟨hu, hc⟩
  | update_student ak i b =>
    refine ⟨?_, ?_⟩
    · rw [(update_student_users_chat s ak i b).1]
      exact hu
    · rw [(update_student_users_chat s ak i b).2]
      exact hc
  | delete_student ak i =>
    refine ⟨?_, ?_⟩
    · rw [(delete_student_users_chat s ak i).1]
      exact hu
    · rw [(delete_student_users_chat s ak i).2]
      exact hc
  | post_chat_message ak m =>
    refine ⟨?_, ?_⟩
    · rw [(post_chat_message_users s ak m).1]
      exact hu
    · exact post_chat_message_len s ak m hc

/-- The bootstrap state satisfies the invariant. -/
theorem init_inv (hash : String → String) (k : String) : Inv (init hash k) := by
  refine ⟨⟨?_, ?_, ?_⟩, ?_⟩
  · simp [init]
  · exact ⟨_, List.mem_singleton.mpr rfl, rfl, rfl⟩
  · intro u hu hrole
    simp only [init, List.mem_singleton] at hu
    subst hu
    exact ⟨rfl, rfl⟩
  · simp [init]

/-- Every reachable state satisfies the invariant. -/
theorem reachable_inv (hash : String → String) (k : String) {s : AppState}
    (h : Reachable hash k s) : Inv s := by
  induction h with
  | refl => exact init_inv hash k
  | tail hab hbc ih => exact step_inv hash hbc ih

end CampusCore

namespace CampusCore

/-- C3: in every state reachable from the bootstrap state, the Owner
account anirudh exists, still has the Owner role and is not suspended, and
every Owner-role row is that account (so no request sequence ever
suspends, deletes or role-changes the Owner); moreover for any
authenticated caller, delete and suspend answer Forbidden (403) without
changing state whenever the target row holds the Owner role, and role
change answers Forbidden (403) without changing state whenever the target
is the caller itself or the Owner role is being assigned. -/
theorem c3_owner_protected (hash : String → String) (k : String) (s : AppState)
    (hs : Reachable hash k s)
    (s2 : AppState) (ck : Option String) (tn : String) (nr : Nat)
    (caller target : User)
    (hauth : get_current_user s2 ck = .ok caller)
    (htarget : get_user_by_username s2 tn.toLower = some target)
    (hrole : target.role = ROLE_OWNER)
    (hblock : tn.toLower = caller.username ∨ nr = ROLE_OWNER) :
    ((∃ u ∈ s.users, u.username = "anirudh" ∧ u.role = ROLE_OWNER ∧
        u.suspended = false) ∧
      (∀ u ∈ s.users, u.role = ROLE_OWNER →
        u.username = "anirudh" ∧ u.suspended = false)) ∧
    ((delete_user s2 ck tn).2 = s2 ∧
      ∃ e, (delete_user s2 ck tn).1 = .error e ∧ e.status_code = 403) ∧
    ((suspend_user s2 ck tn).2 = s2 ∧
      ∃ e, (suspend_user s2 ck tn).1 = .error e ∧ e.status_code = 403) ∧
    ((change_user_role s2 ck tn nr).2 = s2 ∧
      ∃ e, (change_user_role s2 ck tn nr).1 = .error e ∧ e.status_code = 403) := by
  obtain ⟨⟨hnd, ⟨w, hw, hwn, hwr⟩, hall⟩, hchat⟩ := reachable_inv hash k hs
  refine ⟨⟨⟨w, hw, hwn, hwr, (hall w hw hwr).2⟩, hall⟩, ?_, ?_, ?_⟩
  · simp only [delete_user, hauth]
    split
    · exact ⟨rfl, _, rfl, rfl⟩
    · simp only [htarget, hrole, beq_self_eq_true, if_true]
      exact ⟨trivial, _, rfl, rfl⟩
  · simp only [suspend_user, hauth]
    split
    · exact ⟨rfl, _, rfl, rfl⟩
    · simp only [htarget, hrole, beq_self_eq_true, if_true]
      exact ⟨trivial, _, rfl, rfl⟩
  · simp only [change_user_role, hauth]
    split
    · exact ⟨rfl, _, rfl, rfl⟩
    · split
      · exact ⟨rfl, _, rfl, rfl⟩
      · next hselfneg =>
        rcases hblock with hself | hassign
        · exact absurd (by rw [hself]; exact beq_self_eq_true _) hselfneg
        · split
          · exact ⟨rfl, _, rfl, rfl⟩
          · next hassignneg =>
            exact absurd (by rw [hassign]; exact beq_self_eq_true _) hassignneg

/-- C3 witness at the bootstrap state: the Owner, acting on itself, cannot
delete, suspend or owner-assign. -/
theorem c3_owner_protected_witness :
    Reachable id "KO" (init id "KO") ∧
    get_current_user (init id "KO") (some "KO") =
      .ok ⟨"anirudh", id "Aaradhya2509", ROLE_OWNER, "KO", false⟩ ∧
    get_user_by_username (init id "KO") "anirudh".toLower =
      some ⟨"anirudh", id "Aaradhya2509", ROLE_OWNER, "KO", false⟩ ∧
    (User.mk "anirudh" (id "Aaradhya2509") ROLE_OWNER "KO" false).role = ROLE_OWNER ∧
    ("anirudh".toLower =
        (User.mk "anirudh" (id "Aaradhya2509") ROLE_OWNER "KO" false).username ∨
      ROLE_OWNER = ROLE_OWNER) ∧
    (((∃ u ∈ (init id "KO").users, u.username = "anirudh" ∧ u.role = ROLE_OWNER ∧
          u.suspended = false) ∧
        (∀ u ∈ (init id "KO").users, u.role = ROLE_OWNER →
          u.username = "anirudh" ∧ u.suspended = false)) ∧
      ((delete_user (init id "KO") (some "KO") "anirudh").2 = init id "KO" ∧
        ∃ e, (delete_user (init id "KO") (some "KO") "anirudh").1 = .error e ∧
          e.status_code = 403) ∧
      ((suspend_user (init id "KO") (some "KO") "anirudh").2 = init id "KO" ∧
        ∃ e, (suspend_user (init id "KO") (some "KO") "anirudh").1 = .error e ∧
          e.status_code = 403) ∧
      ((change_user_role (init id "KO") (some "KO") "anirudh" ROLE_OWNER).2 =
          init id "KO" ∧
        ∃ e, (change_user_role (init id "KO") (some "KO") "anirudh" ROLE_OWNER).1 =
          .error e ∧ e.status_code = 403)) :=
  ⟨Relation.ReflTransGen.refl,
    by decide,
    by simp only [get_user_by_username, init, toLower_eq_map]; decide,
    rfl,
    Or.inr rfl,
    c3_owner_protected id "KO" (init id "KO") Relation.ReflTransGen.refl
      (init id "KO") (some "KO") "anirudh" ROLE_OWNER
      ⟨"anirudh", id "Aaradhya2509", ROLE_OWNER, "KO", false⟩
      ⟨"anirudh", id "Aaradhya2509", ROLE_OWNER, "KO", false⟩
      (by decide)
      (by simp only [get_user_by_username, init, toLower_eq_map]; decide)
      rfl
      (Or.inr rfl)⟩

end CampusCore

namespace CampusCore

/-- Dropping a prefix-length offset from an append drops inside the right
part. -/
theorem drop_length_add {α : Type} (x y : List α) (m : Nat) :
    (x ++ y).drop (x.length + m) = y.drop m := by
  rw [← List.drop_drop, List.drop_left]

/-- A list already within the window is its own last-n slice. -/
theorem takeLast_of_le {α : Type} (n : Nat) (l : List α) (h : l.length ≤ n) :
    takeLast n l = l := by
  unfold takeLast
  have : l.length - n = 0 := by omega
  rw [this, List.drop_zero]

/-- The last-n slice ignores anything appended in front of a part that is
already at least n long. -/
theorem takeLast_append_of_le {α : Type} (n : Nat) (x y : List α)
    (h : n ≤ y.length) : takeLast n (x ++ y) = takeLast n y := by
  unfold takeLast
  rw [List.length_append]
  have heq : x.length + y.length - n = x.length + (y.length - n) := by omega
  rw [heq, drop_length_add]

/-- The last-n slice is unaffected by removing the head of a part that
still keeps at least n elements after the removal. -/
theorem takeLast_drop_head {α : Type} (n : Nat) (l r : List α)
    (h : n + 1 ≤ l.length) :
    takeLast n (l.drop 1 ++ r) = takeLast n (l ++ r) := by
  have hcond : n ≤ (l.drop 1 ++ r).length := by
    simp only [List.length_append, List.length_drop]
    omega
  conv_rhs => rw [← List.take_append_drop 1 l]
  rw [List.append_assoc,
    takeLast_append_of_le n (List.take 1 l) (List.drop 1 l ++ r) hcond]

/-- Authentication depends only on the users table. -/
theorem get_current_user_congr (s1 s2 : AppState) (ak : Option String)
    (h : s1.users = s2.users) :
    get_current_user s1 ak = get_current_user s2 ak := by
  unfold get_current_user get_user_by_api_key
  rw [h]

/-- Sliding-window characterization of a sequence of chat posts: starting
within the cap, the retained log afterwards is exactly the last 200 of the
old log extended by the posted entries, and the users table is untouched. -/
theorem postTexts_chat (ak : Option String) (u : User) (ts : List String)
    (s : AppState) (hauth : get_current_user s ak = .ok u)
    (hlen : s.chat.length ≤ 200) :
    (postTexts ak ts s).chat =
      takeLast 200 (s.chat ++ chatEntries u.username ts) ∧
    (postTexts ak ts s).users = s.users := by
  induction ts generalizing s with
  | nil =>
    refine ⟨?_, rfl⟩
    show s.chat = takeLast 200 (s.chat ++ [])
    rw [List.append_nil, takeLast_of_le 200 _ hlen]
  | cons t ts ih =>
    have hfold : postTexts ak (t :: ts) s =
        postTexts ak ts ((post_chat_message s ak ⟨"", t⟩).2) := rfl
    have husers : ((post_chat_message s ak ⟨"", t⟩).2).users = s.users :=
      (post_chat_message_users s ak ⟨"", t⟩).1
    have hauth1 : get_current_user ((post_chat_message s ak ⟨"", t⟩).2) ak = .ok u := by
      rw [get_current_user_congr _ s ak husers]
      exact hauth
    have hlen1 : ((post_chat_message s ak ⟨"", t⟩).2).chat.length ≤ 200 :=
      post_chat_message_len s ak ⟨"", t⟩ hlen
    have hchat1 : ((post_chat_message s ak ⟨"", t⟩).2).chat =
        if (s.chat ++ [ChatEntry.mk u.username t]).length > 200
        then (s.chat ++ [ChatEntry.mk u.username t]).drop 1
        else s.chat ++ [ChatEntry.mk u.username t] := by
      simp only [post_chat_message, hauth]
    obtain ⟨ihc, ihu⟩ := ih _ hauth1 hlen1
    refine ⟨?_, by rw [hfold, ihu, husers]⟩
    rw [hfold, ihc, hchat1]
    have hsplit : s.chat ++ chatEntries u.username (t :: ts) =
        (s.chat ++ [ChatEntry.mk u.username t]) ++ chatEntries u.username ts := by
      simp only [chatEntries, List.map_cons]
      rw [List.append_cons]
    rw [hsplit]
    split
    · next hgt =>
      apply takeLast_drop_head 200
      simp only [List.length_append, List.length_cons, List.length_nil] at hgt ⊢
      omega
    · rfl

end CampusCore

namespace CampusCore

/-- C4: the chat log is bounded and reads are capped.  In every reachable
state the retained log holds at most 200 entries; posting 205 messages
into an empty log by an authenticated caller retains exactly the last 200
posted entries in arrival order, the oldest 5 having been evicted first-in
first-out one per insert over the cap; and a read returns a suffix of the
retained log of length at most 100, exactly 100 once the log has at least
100 entries. -/
theorem c4_chat_bounded (hash : String → String) (k : String)
    (s1 : AppState) (h1 : Reachable hash k s1)
    (s2 : AppState) (ak : Option String) (u : User) (ts : List String)
    (hauth : get_current_user s2 ak = .ok u) (hempty : s2.chat = [])
    (hcount : ts.length = 205)
    (s3 : AppState) :
    s1.chat.length ≤ 200 ∧
    ((postTexts ak ts s2).chat = chatEntries u.username (ts.drop 5) ∧
      (postTexts ak ts s2).chat.length = 200) ∧
    ((get_chat_messages s3).length ≤ 100 ∧
      get_chat_messages s3 <:+ s3.chat ∧
      (100 ≤ s3.chat.length → (get_chat_messages s3).length = 100)) := by
  have hl : s2.chat.length ≤ 200 := by
    rw [hempty]
    simp
  have hmain := (postTexts_chat ak u ts s2 hauth hl).1
  rw [hempty, List.nil_append] at hmain
  have hE : (chatEntries u.username ts).length = 205 := by
    simp [chatEntries, hcount]
  have hB1 : (postTexts ak ts s2).chat = chatEntries u.username (ts.drop 5) := by
    rw [hmain]
    unfold takeLast
    rw [hE]
    show (chatEntries u.username ts).drop 5 = chatEntries u.username (ts.drop 5)
    simp [chatEntries]
  refine ⟨(reachable_inv hash k h1).2, ⟨hB1, ?_⟩, ?_, List.drop_suffix _ _, ?_⟩
  · rw [hB1]
    simp [chatEntries, hcount]
  · simp only [get_chat_messages, List.length_drop]
    omega
  · intro h
    simp only [get_chat_messages, List.length_drop]
    omega

/-- C4 witness: the guest gia posts 205 messages into the empty log on the
fixture state; the bounded-reachable part is instanced at the bootstrap
state and the read part at the one-message fixture state. -/
theorem c4_chat_bounded_witness :
    Reachable id "KO" (init id "KO") ∧
    get_current_user c8State (some "KG") =
      .ok ⟨"gia", "x", ROLE_GUEST, "KG", false⟩ ∧
    c8State.chat = [] ∧
    (List.replicate 205 "x").length = 205 ∧
    ((init id "KO").chat.length ≤ 200 ∧
      ((postTexts (some "KG") (List.replicate 205 "x") c8State).chat =
          chatEntries (User.mk "gia" "x" ROLE_GUEST "KG" false).username
            ((List.replicate 205 "x").drop 5) ∧
        (postTexts (some "KG") (List.replicate 205 "x") c8State).chat.length = 200) ∧
      ((get_chat_messages c6State).length ≤ 100 ∧
        get_chat_messages c6State <:+ c6State.chat ∧
        (100 ≤ c6State.chat.length → (get_chat_messages c6State).length = 100))) :=
  ⟨Relation.ReflTransGen.refl,
    by decide,
    rfl,
    List.length_replicate 205 "x",
    c4_chat_bounded id "KO" (init id "KO") Relation.ReflTransGen.refl
      c8State (some "KG") ⟨"gia", "x", ROLE_GUEST, "KG", false⟩
      (List.replicate 205 "x") (by decide) rfl (List.length_replicate 205 "x") c6State⟩

end CampusCore
